import Mathlib

/-!
Verification of the vibe_check_backend repository (a FastAPI + PostGIS
crowd-report service) against its natural-language specification.

The development shallowly embeds the repository's core operations:

* `app/core/security.py` — password hashing/verification (passlib
  `CryptContext(schemes=["bcrypt_sha256"])`) and JWT issuance/decoding
  (`python-jose`, HS256).
* `app/dependencies/auth_user.py` — `get_current_user`, the bearer-token
  identity-resolution dependency.
* `app/routers/auth.py` — `register_user`.
* `app/routers/users.py` — `create_user`, `update_user`, `delete_user`.
* `app/routers/reports.py` — `submit_report`, `get_nearby_reports`
  (the `DISTINCT ON (place_name) ... ORDER BY place_name, timestamp DESC`
  PostGIS query) and `delete_report`.

The storage engine is out of scope per the specification; it is consumed
through its documented query semantics, so the relational state is a list
of rows and the SQL statements are embedded by their documented meaning
(`DELETE WHERE id = x` removes exactly the rows with that id;
`DISTINCT ON (a) ... ORDER BY a, b DESC` keeps, for each value of `a`,
the first row of that group under the ordering, i.e. one with maximal `b`;
`ST_DWithin(g1, g2, d)` over geography holds iff the geodesic distance of
`g1` and `g2` is at most `d`).  The geodesic distance itself is a library
primitive and enters the model as an abstract parameter
`dist : Point → Point → ℚ`.  Timestamps are naturals (epoch seconds),
Python strings are `String` (or `List Char` where their character
structure matters).
-/

namespace VibeCheck

/-! ## Password hashing — `app/core/security.py`

`pwd_context = CryptContext(schemes=["bcrypt_sha256"])`.  The passlib
library is external; it is modelled by its documented interface: a
`bcrypt_sha256` hash string is self-describing — it carries the
recognisable `$bcrypt-sha256$...` format prefix followed by the
parameter/salt/digest payload.  The per-call random salt and work factor
are abstracted away and the digest is modelled as an ideal injective
digest of the password (hash collisions are ignored).  `CryptContext.verify`
is documented to raise `UnknownHashError` when the candidate hash string
does not parse as any configured scheme, and otherwise to return a
boolean. -/

/-- Format prefix of a passlib `bcrypt_sha256` hash string. -/
def hashPfx : List Char := "$bcrypt-sha256$".toList

/-- Strips a fixed prefix from a character list, or fails. -/
def stripPfx : List Char → List Char → Option (List Char)
  | [], h => some h
  | _ :: _, [] => none
  | c :: cs, d :: hs => if c = d then stripPfx cs hs else none

/-- `hash_password` (security.py line 15): `pwd_context.hash(password)`.
The output is the self-describing hash string: format prefix plus the
(idealised, injective) digest payload.  The random salt only varies the
payload encoding and is abstracted away. -/
def hash_password (password : List Char) : List Char := hashPfx ++ password

/-- Passlib's parse of a candidate hash string: recognised iff it carries
the `bcrypt_sha256` format prefix; yields the digest payload. -/
def parseHash (h : List Char) : Option (List Char) := stripPfx hashPfx h

/-- Passlib error raised by `CryptContext.verify` when the hash string is
not recognised as any configured scheme. -/
inductive PasslibError
  | unknownHash
deriving DecidableEq

/-- `verify_password` (security.py line 23): returns
`pwd_context.verify(plain_password, hashed_password)` with no exception
handling, so passlib's `UnknownHashError` on an unrecognised hash
propagates to the caller. -/
def verify_password (plain hashed : List Char) : Except PasslibError Bool :=
  match parseHash hashed with
  | none => Except.error PasslibError.unknownHash
  | some digest => Except.ok (decide (plain = digest))

theorem stripPfx_append (pre rest : List Char) : stripPfx pre (pre ++ rest) = some rest := by
  induction pre with
  | nil => rfl
  | cons c cs ih => simp [stripPfx, ih]

/-- Claim C6: for every password, `verify_password password
(hash_password password)` returns true, and for every other candidate
password it returns false. -/
theorem c6_verify_of_hash (p q : List Char) (hne : q ≠ p) :
    verify_password p (hash_password p) = Except.ok true ∧
    verify_password q (hash_password p) = Except.ok false := by
  constructor
  · simp [verify_password, parseHash, hash_password, stripPfx_append]
  · simp [verify_password, parseHash, hash_password, stripPfx_append, hne]

/-- Witness for C6 at the concrete passwords "abc" and "abd". -/
theorem c6_verify_of_hash_witness :
    verify_password "abc".toList (hash_password "abc".toList) = Except.ok true ∧
    verify_password "abd".toList (hash_password "abc".toList) = Except.ok false := by
  have h := c6_verify_of_hash "abc".toList "abd".toList (by decide)
  exact ⟨h.1, h.2⟩

/-- Counterexample to claim C7 as stated: on the malformed candidate hash
"nothash" (not a recognisable hash encoding), `verify_password` does not
return false — it raises (propagates passlib's `UnknownHashError`). -/
theorem c7_verify_malformed_counterexample :
    verify_password "x".toList "nothash".toList = Except.error PasslibError.unknownHash ∧
    verify_password "x".toList "nothash".toList ≠ Except.ok false := by
  constructor
  · rfl
  · intro h
    simp [verify_password, parseHash, hashPfx, stripPfx] at h

/-- Claim C7 (amended): for every plaintext and every malformed candidate
hash (one that does not parse as a recognised hash encoding),
`verify_password` raises passlib's `UnknownHashError` — uncaught by the
wrapper — rather than returning false; it returns a boolean (without
throwing) only on recognised hashes. -/
theorem c7_verify_malformed_raises (plain hashed : List Char)
    (hmal : parseHash hashed = none) :
    verify_password plain hashed = Except.error PasslibError.unknownHash := by
  simp [verify_password, hmal]

/-- Witness for amended C7 at plaintext "x" and malformed hash "nothash". -/
theorem c7_verify_malformed_raises_witness :
    verify_password "x".toList "nothash".toList = Except.error PasslibError.unknownHash :=
  c7_verify_malformed_raises "x".toList "nothash".toList (by decide)

/-! ## Data model — `app/models.py` -/

/-- `User` row (models.py line 44).  `joined_at` is epoch seconds. -/
structure User where
  id : Nat
  username : String
  email : Option String
  password_hash : List Char
  name : Option String
  avatar_url : Option String
  bio : Option String
  joined_at : Nat
  is_active : Bool
deriving DecidableEq

/-! ## JWT tokens — `app/core/security.py`

The `python-jose` library is external and is modelled by its documented
behaviour: `jwt.decode(token, key, algorithms=[...])` raises `JWTError`
(uniformly — `ExpiredSignatureError` is a subclass) when the token is
structurally malformed, when the signature does not verify against `key`,
or when the embedded `exp` claim lies in the past; otherwise it returns
the payload claims.  A token value is modelled by whether it is
structurally well formed, which key signed it, and its payload claims. -/

/-- security.py line 31: the hardcoded signing secret. -/
def SECRET_KEY : String := "CHANGE_ME_TO_REAL_SECRET"

/-- JWT payload claims relevant to this service: the subject and the
expiration instant (epoch seconds). -/
structure JwtPayload where
  sub : Option String
  exp : Option Nat
deriving DecidableEq

/-- A bearer-token value as the verifier sees it. -/
structure JwtToken where
  wellFormed : Bool
  signKey : String
  payload : JwtPayload
deriving DecidableEq

/-- Result of `jose.jwt.decode`: payload, or a raised `JWTError`
(one uniform error class for malformed / bad signature / expired). -/
inductive JoseResult
  | ok (p : JwtPayload)
  | jwtError
deriving DecidableEq

/-- `jose.jwt.decode(token, SECRET_KEY, algorithms=["HS256"])` as called
by `decode_access_token` (security.py line 57): fails uniformly on a
malformed token, a signature not made with `SECRET_KEY`, or an elapsed
`exp` claim. -/
def jwtDecode (now : Nat) (t : JwtToken) : JoseResult :=
  if ¬ t.wellFormed then JoseResult.jwtError
  else if t.signKey ≠ SECRET_KEY then JoseResult.jwtError
  else
    match t.payload.exp with
    | some e => if e < now then JoseResult.jwtError else JoseResult.ok t.payload
    | none => JoseResult.ok t.payload

/-- `decode_access_token` (security.py line 51): calls `jwt.decode` and
re-raises `JWTError` unchanged to the caller. -/
def decode_access_token (now : Nat) (t : JwtToken) : JoseResult := jwtDecode now t

/-- `create_access_token` (security.py line 36): signs, with
`SECRET_KEY`, the given claims plus `exp = now + ttl`.  Issued as
`{"sub": username}` by the login endpoint. -/
def create_access_token (sub : String) (now ttlSeconds : Nat) : JwtToken :=
  { wellFormed := true
    signKey := SECRET_KEY
    payload := { sub := some sub, exp := some (now + ttlSeconds) } }

/-! ## Identity resolution — `app/dependencies/auth_user.py` -/

/-- Outcome of the `get_current_user` dependency as the HTTP layer sees
it: a resolved user, a raised `HTTPException` with a status code, or an
exception the function does not catch (which Starlette's server-error
handling turns into a 500 response). -/
inductive AuthOutcome
  | ok (u : User)
  | httpError (code : Nat)
  | uncaughtJoseError
deriving DecidableEq

/-- `get_current_user` (auth_user.py line 12).  Calls
`decode_access_token(token)` with NO exception handling, so a raised
`JWTError` propagates uncaught; when decoding succeeds it raises 401 if
the payload carries no `"sub"` claim (the `not payload or "sub" not in
payload` check — an empty payload has no `sub`), raises 404 if no user
row has that username, and otherwise returns the user.
`GET /api/auth/me` (auth.py line 78) replicates this logic verbatim. -/
def get_current_user (now : Nat) (t : JwtToken) (users : List User) : AuthOutcome :=
  match decode_access_token now t with
  | JoseResult.jwtError => AuthOutcome.uncaughtJoseError
  | JoseResult.ok p =>
    match p.sub with
    | none => AuthOutcome.httpError 401
    | some name =>
      match users.find? (fun u => decide (u.username = name)) with
      | none => AuthOutcome.httpError 404
      | some u => AuthOutcome.ok u

/-- HTTP status of an authenticated request that got as far as identity
resolution: an uncaught exception is answered by the framework with a
500 Internal Server Error response. -/
def httpStatusOf : AuthOutcome → Nat
  | AuthOutcome.ok _ => 200
  | AuthOutcome.httpError c => c
  | AuthOutcome.uncaughtJoseError => 500

/-- A registered user on file for the token-failure evaluations. -/
def aliceUser : User :=
  { id := 1, username := "alice", email := none
    password_hash := hash_password "secret1".toList
    name := none, avatar_url := none, bio := none
    joined_at := 0, is_active := true }

/-- Claim C1 is a code bug: for a structurally invalid token, a token
signed with the wrong key, and an expired token alike, the
`get_current_user` dependency (used by submit report, delete report and
the current-user endpoints) lets `JWTError` escape, so the request is
answered 500 — not the 401 the claim (and the function's own docstring)
states. -/
theorem c1_invalid_token_gives_500_not_401 :
    httpStatusOf (get_current_user 100
      { wellFormed := false, signKey := "", payload := { sub := none, exp := none } }
      [aliceUser]) = 500 ∧
    httpStatusOf (get_current_user 100
      { wellFormed := true, signKey := "attacker-key"
        payload := { sub := some "alice", exp := some 1000 } }
      [aliceUser]) = 500 ∧
    httpStatusOf (get_current_user 100 (create_access_token "alice" 0 60) [aliceUser]) = 500 ∧
    (500 : Nat) ≠ 401 := by
  refine ⟨by decide, by decide, by decide, by decide⟩

/-! ## User endpoints — `app/routers/auth.py` and `app/routers/users.py` -/

/-- `UserCreate` request body (schemas.py line 45). -/
structure UserCreate where
  username : String
  email : Option String
  password : List Char
  name : Option String
  avatar_url : Option String
  bio : Option String
deriving DecidableEq

/-- Builds the new `User` row inserted by the creation endpoints;
`stored_pw` is whatever value the endpoint puts in `password_hash`. -/
def mkNewUser (nextId now : Nat) (ud : UserCreate) (stored_pw : List Char) : User :=
  { id := nextId, username := ud.username, email := ud.email
    password_hash := stored_pw
    name := ud.name, avatar_url := ud.avatar_url, bio := ud.bio
    joined_at := now, is_active := true }

/-- Result of a user-creation endpoint: the created row, or the 400
"already exists" conflict. -/
inductive RegResult
  | ok (u : User)
  | conflict400
deriving DecidableEq

/-- The `IntegrityError` commit guard of `register_user`: the `User`
table declares `email` unique, so a duplicate non-null email makes the
commit fail (rolled back and answered 400). -/
def emailTaken (db : List User) : Option String → Bool
  | some e => db.any (fun u => decide (u.email = some e))
  | none => false

/-- `register_user` (auth.py line 31): 400 if the username is on file;
otherwise inserts a row whose `password_hash` is
`hash_password(user_data.password)`; an `IntegrityError` on commit
(duplicate email) is rolled back and answered 400. -/
def register_user (db : List User) (nextId now : Nat) (ud : UserCreate) :
    RegResult × List User :=
  if db.any (fun u => decide (u.username = ud.username)) then (RegResult.conflict400, db)
  else if emailTaken db ud.email then (RegResult.conflict400, db)
  else (RegResult.ok (mkNewUser nextId now ud (hash_password ud.password)),
        db ++ [mkNewUser nextId now ud (hash_password ud.password)])

/-- `create_user` (users.py line 33, `POST /api/users/`): 400 if the
username is on file; otherwise inserts a row whose `password_hash` field
is `user_data.password` VERBATIM — the plaintext, not a hash (the source
marks the line "TODO: hash before production"). -/
def create_user (db : List User) (nextId now : Nat) (ud : UserCreate) :
    RegResult × List User :=
  if db.any (fun u => decide (u.username = ud.username)) then (RegResult.conflict400, db)
  else (RegResult.ok (mkNewUser nextId now ud ud.password),
        db ++ [mkNewUser nextId now ud ud.password])

/-- `UserUpdate` request body (schemas.py line 58); `none` = field not
supplied (`exclude_unset`). -/
structure UserUpdate where
  username : Option String
  email : Option String
  name : Option String
  bio : Option String
  avatar_url : Option String
deriving DecidableEq

/-- `user_data.dict(exclude_unset=True)` is nonempty. -/
def hasFields (d : UserUpdate) : Bool :=
  d.username.isSome || d.email.isSome || d.name.isSome || d.bio.isSome || d.avatar_url.isSome

/-- The `setattr` loop of `update_user`: each supplied field overwrites
the stored one. -/
def applyUpdate (u : User) (d : UserUpdate) : User :=
  { u with
    username := d.username.getD u.username
    email := match d.email with | some e => some e | none => u.email
    name := match d.name with | some n => some n | none => u.name
    bio := match d.bio with | some b => some b | none => u.bio
    avatar_url := match d.avatar_url with | some a => some a | none => u.avatar_url }

/-- Outcome of `PUT /api/users/{user_id}` as the HTTP layer sees it: the
updated user, a raised `HTTPException` with its status code, or the
`IntegrityError` the commit raises on a unique-constraint violation —
which users.py does not catch, so the framework answers 500. -/
inductive UpdateResult
  | ok (u : User)
  | err (code : Nat)
  | uncaughtIntegrityError
deriving DecidableEq

/-- HTTP status of the update endpoint's outcome. -/
def statusOfUpdate : UpdateResult → Nat
  | UpdateResult.ok _ => 200
  | UpdateResult.err c => c
  | UpdateResult.uncaughtIntegrityError => 500

/-- The unique-constraint check the database runs when the updated row
is committed: some OTHER stored row already holds the row's username
(`User.username` is declared unique). -/
def usernameConflict (db : List User) (uid : Nat) (uname : String) : Bool :=
  db.any (fun x => decide (x.id ≠ uid) && decide (x.username = uname))

/-- Likewise for the nullable, unique email column. -/
def emailConflict (db : List User) (uid : Nat) : Option String → Bool
  | some e => db.any (fun x => decide (x.id ≠ uid) && decide (x.email = some e))
  | none => false

/-- `update_user` (users.py line 97, `PUT /api/users/{user_id}`).  The
endpoint declares NO authentication dependency — no token is consumed,
hence no token parameter here.  404 if the id is not on file, 400 if no
fields were supplied; otherwise it setattrs every supplied field
(username and email included) and commits with no `IntegrityError`
handling: a unique-constraint collision on commit propagates uncaught
(a 500, the transaction rolled back), else the update is persisted. -/
def update_user (db : List User) (uid : Nat) (d : UserUpdate) :
    UpdateResult × List User :=
  match db.find? (fun u => decide (u.id = uid)) with
  | none => (UpdateResult.err 404, db)
  | some u =>
    if hasFields d then
      if usernameConflict db uid (applyUpdate u d).username
          || emailConflict db uid (applyUpdate u d).email then
        (UpdateResult.uncaughtIntegrityError, db)
      else
        (UpdateResult.ok (applyUpdate u d),
         db.map (fun x => if x.id = uid then applyUpdate u d else x))
    else (UpdateResult.err 400, db)

/-- `delete_user` (users.py line 127, `DELETE /api/users/{user_id}`).
Also declares NO authentication dependency.  404 if the id is not on
file, otherwise deletes the row and commits.  This commit cannot fail
in the modelled flows: the only restricting reference to `user` is the
`follower` table, which no endpoint ever populates, and `vibe.user_id`
is a nullable ORM relationship the session nulls out on delete. -/
def delete_user (db : List User) (uid : Nat) : Except Nat String × List User :=
  match db.find? (fun u => decide (u.id = uid)) with
  | none => (Except.error 404, db)
  | some u => (Except.ok u.username, db.filter (fun x => decide (x.id ≠ uid)))

/-- The creation request of the C5 evaluation. -/
def bobCreate : UserCreate :=
  { username := "bob", email := none, password := "secret1".toList
    name := none, avatar_url := none, bio := none }

/-- Claim C5 is a code bug: `POST /api/users/` (`create_user`) persists
the plaintext password itself in `password_hash` — for the registration
"bob"/"secret1" the stored field is the string "secret1", which is not
the one-way hash of "secret1" (contrast `register_user`, which does
store the hash). -/
theorem c5_create_user_stores_plaintext :
    ((create_user [] 1 0 bobCreate).2.map (fun u => u.password_hash)) = ["secret1".toList] ∧
    "secret1".toList ≠ hash_password "secret1".toList ∧
    ((register_user [] 1 0 bobCreate).2.map (fun u => u.password_hash))
      = [hash_password "secret1".toList] := by
  refine ⟨by decide, by decide, by decide⟩

/-- Claim C9: when a registration has succeeded, a second registration
with the same username fails with the 400 conflict, leaves the store
unchanged, and the first user's row is still on file. -/
theorem c9_duplicate_username_conflict (db : List User) (n1 t1 n2 t2 : Nat)
    (ud1 ud2 : UserCreate) (u1 : User) (db1 : List User)
    (h1 : register_user db n1 t1 ud1 = (RegResult.ok u1, db1))
    (h2 : ud2.username = ud1.username) :
    register_user db1 n2 t2 ud2 = (RegResult.conflict400, db1) ∧ u1 ∈ db1 := by
  unfold register_user at h1
  by_cases hdup : db.any (fun u => decide (u.username = ud1.username)) = true
  · rw [if_pos hdup] at h1
    exact absurd (congrArg Prod.fst h1) (by simp)
  · rw [if_neg hdup] at h1
    by_cases hem : emailTaken db ud1.email = true
    · rw [if_pos hem] at h1
      exact absurd (congrArg Prod.fst h1) (by simp)
    · rw [if_neg hem] at h1
      have hu : mkNewUser n1 t1 ud1 (hash_password ud1.password) = u1 := by
        have := congrArg Prod.fst h1
        simpa using this
      have hdb : db1 = db ++ [u1] := by
        have := congrArg Prod.snd h1
        rw [hu] at this
        exact this.symm
      have hmem : u1 ∈ db1 := by
        rw [hdb]
        exact List.mem_append_right _ (by simp)
      have hcond : db1.any (fun u => decide (u.username = ud2.username)) = true := by
        rw [List.any_eq_true]
        refine ⟨u1, hmem, ?_⟩
        simp [← hu, mkNewUser, h2]
      refine ⟨?_, hmem⟩
      unfold register_user
      rw [if_pos hcond]

/-- Witness for C9: registering "carol" twice on an empty store. -/
theorem c9_duplicate_username_conflict_witness :
    register_user (register_user [] 1 0 bobCreate).2 2 5
        { bobCreate with email := some "b@x.org" }
      = (RegResult.conflict400, (register_user [] 1 0 bobCreate).2) ∧
    mkNewUser 1 0 bobCreate (hash_password bobCreate.password)
      ∈ (register_user [] 1 0 bobCreate).2 := by
  exact c9_duplicate_username_conflict [] 1 0 2 5 bobCreate
    { bobCreate with email := some "b@x.org" }
    (mkNewUser 1 0 bobCreate (hash_password bobCreate.password))
    (register_user [] 1 0 bobCreate).2 (by decide) rfl

/-- Stored user "alice" (id 1) for the C10 evaluations. -/
def aliceStored : User :=
  { id := 1, username := "alice", email := none
    password_hash := hash_password "pw-alice".toList
    name := none, avatar_url := none, bio := none
    joined_at := 0, is_active := true }

/-- Stored user "bob" (id 2) for the C10 evaluations. -/
def bobStored : User :=
  { id := 2, username := "bob", email := none
    password_hash := hash_password "pw-bob".toList
    name := none, avatar_url := none, bio := none
    joined_at := 0, is_active := true }

/-- Counterexample to claim C10 as stated: with "alice" (id 1) and "bob"
(id 2) on file, the unauthenticated `PUT /api/users/2` renaming bob to
"alice" hits the username unique constraint — the target exists and a
field is supplied, yet nothing is mutated: the commit's
`IntegrityError` propagates uncaught and the request is answered 500. -/
theorem c10_update_collision_counterexample :
    update_user [aliceStored, bobStored] 2
        { username := some "alice", email := none, name := none, bio := none
          avatar_url := none }
      = (UpdateResult.uncaughtIntegrityError, [aliceStored, bobStored]) ∧
    statusOfUpdate (update_user [aliceStored, bobStored] 2
        { username := some "alice", email := none, name := none, bio := none
          avatar_url := none }).1
      = 500 := by
  exact ⟨by decide, by decide⟩

/-- Claim C10 (amended): `PUT /api/users/{user_id}` and `DELETE
/api/users/{user_id}` perform no authentication or ownership check (the
endpoints consume no token at all): they never answer 401 or 403;
whenever the target user exists, delete removes it, and update mutates
it given at least one supplied field whose updated unique values
(username/email) collide with no other stored user — on a collision the
commit's `IntegrityError` instead propagates uncaught (500) with
nothing mutated. -/
theorem c10_users_update_delete_no_auth (db : List User) (uid : Nat) (d : UserUpdate) :
    (statusOfUpdate (update_user db uid d).1 ≠ 401 ∧
      statusOfUpdate (update_user db uid d).1 ≠ 403) ∧
    ((delete_user db uid).1 ≠ Except.error 401 ∧
      (delete_user db uid).1 ≠ Except.error 403) ∧
    ((∃ u ∈ db, u.id = uid) →
      (∃ m, (delete_user db uid).1 = Except.ok m) ∧
      ∀ x ∈ (delete_user db uid).2, x.id ≠ uid) ∧
    (∀ u, db.find? (fun x => decide (x.id = uid)) = some u → hasFields d = true →
      (usernameConflict db uid (applyUpdate u d).username
        || emailConflict db uid (applyUpdate u d).email) = false →
      (update_user db uid d).1 = UpdateResult.ok (applyUpdate u d)) := by
  rcases hfind : db.find? (fun u => decide (u.id = uid)) with _ | u
  · have hnone := List.find?_eq_none.mp hfind
    refine ⟨by simp [update_user, hfind, statusOfUpdate],
      by simp [delete_user, hfind], ?_, ?_⟩
    · rintro ⟨u, hu, hid⟩
      exact absurd hid (by simpa using hnone u hu)
    · intro v hv hf hc
      rw [hfind] at hv
      exact absurd hv (by simp)
  · refine ⟨?_, by simp [delete_user, hfind], ?_, ?_⟩
    · by_cases hf : hasFields d = true
      · by_cases hc : (usernameConflict db uid (applyUpdate u d).username
            || emailConflict db uid (applyUpdate u d).email) = true
        · simp [update_user, hfind, hf, hc, statusOfUpdate]
        · rw [Bool.not_eq_true] at hc
          simp [update_user, hfind, hf, hc, statusOfUpdate]
      · simp [update_user, hfind, hf, statusOfUpdate]
    · intro _
      refine ⟨⟨u.username, by simp [delete_user, hfind]⟩, ?_⟩
      intro x hx
      have hx' : x ∈ db.filter (fun y => decide (y.id ≠ uid)) := by
        simpa [delete_user, hfind] using hx
      have := (List.mem_filter.mp hx').2
      simpa using this
    · intro v hv hf hc
      rw [hfind] at hv
      have hvu : u = v := Option.some.inj hv
      subst hvu
      simp [update_user, hfind, hf, hc]

/-- Witness for amended C10: on the two-user store, the unauthenticated
delete of user 2 succeeds and removes him, and a conflict-free update
(setting bob's display name) is persisted. -/
theorem c10_users_update_delete_no_auth_witness :
    ((∃ m, (delete_user [aliceStored, bobStored] 2).1 = Except.ok m) ∧
      ∀ x ∈ (delete_user [aliceStored, bobStored] 2).2, x.id ≠ 2) ∧
    (update_user [aliceStored, bobStored] 2
        { username := none, email := none, name := some "Bobby", bio := none
          avatar_url := none }).1
      = UpdateResult.ok (applyUpdate bobStored
        { username := none, email := none, name := some "Bobby", bio := none
          avatar_url := none }) := by
  have h := c10_users_update_delete_no_auth [aliceStored, bobStored] 2
    { username := none, email := none, name := some "Bobby", bio := none
      avatar_url := none }
  exact ⟨h.2.2.1 ⟨bobStored, by decide, rfl⟩,
    h.2.2.2 bobStored (by decide) (by decide) (by decide)⟩

/-! ## Reports — `app/models.py` and `app/routers/reports.py`

The `report` table and the three endpoints.  Latitude/longitude and the
radius are rationals; the geodesic distance computed by
PostGIS (`ST_Distance` / `ST_DWithin` over `geography`, the same
spheroidal measure for both) is an abstract parameter
`dist : Point → Point → ℚ`.  The `DISTINCT ON (place_name) ... ORDER BY
place_name, "timestamp" DESC` query keeps, for each `place_name`, the
first row of that group under the ordering — a row of maximal
`timestamp` (among tied timestamps Postgres picks an arbitrary one; the
model picks the first stored, an admissible execution).  The final
cross-place ordering (alphabetical by `place_name` in the source) and
the response serialisation (rounded `distance_km`, tag-decoding
fallback) carry no claim and are not modelled. -/

/-- A WGS84 point (SRID 4326). -/
structure Point where
  lat : ℚ
  lon : ℚ
deriving DecidableEq

/-- `Report` row (models.py line 13).  models.py types `user_id` as
`str` — a varchar column (unlike `Vibe.user_id`, a proper int foreign
key) — so a stored value read back from it is a Python string;
`timestamp` is the server-assigned epoch-seconds creation instant. -/
structure Report where
  id : Nat
  location : Point
  place_name : String
  crowd_status : Int
  decibel_level : ℚ
  vibe_tags : List String
  user_id : String
  timestamp : Nat
deriving DecidableEq

/-- `ReportCreate` request body (schemas.py line 8). -/
structure ReportCreate where
  lat : ℚ
  lon : ℚ
  place_name : String
  crowd_status : Int
  decibel_level : ℚ
  vibe_tags : List String
  user_id : String
deriving DecidableEq

/-- The pydantic field constraints of `ReportCreate` that FastAPI checks
before the handler runs: `crowd_status` with `ge=1, le=3`, `place_name`
with `max_length=100`, `user_id` with `max_length=50`. -/
abbrev validReportCreate (rc : ReportCreate) : Prop :=
  1 ≤ rc.crowd_status ∧ rc.crowd_status ≤ 3 ∧
    rc.place_name.length ≤ 100 ∧ rc.user_id.length ≤ 50

/-- Outcome of `POST /api/reports/`: FastAPI's 422 validation rejection
(raised before the handler, hence before any store call), or the 500
the handler's generic `except` answers when the store call fails. -/
inductive SubmitResult
  | validationError422
  | storeError500
deriving DecidableEq

/-- `submit_report` (reports.py line 22) composed with FastAPI's body
validation: an invalid body is rejected up front with no store call.  A
valid body reaches the `INSERT`, which binds the int `current_user.id`
to the varchar `user_id` column; the driver rejects the parameter
(expected str, got int), the generic `except` answers 500, and no row
is inserted. -/
def submit_report (db : List Report) (_nextId _now : Nat) (rc : ReportCreate)
    (_currentUserId : Int) : SubmitResult × List Report :=
  if validReportCreate rc then (SubmitResult.storeError500, db)
  else (SubmitResult.validationError422, db)

/-- Outcome of `DELETE /api/reports/{report_id}`. -/
inductive DeleteResult
  | success
  | notFound404
  | forbidden403
deriving DecidableEq

/-- A Python value as it appears in the owner comparison of
`delete_report`: the varchar `user_id` read from the row is a `str`,
the token user's `id` an `int`. -/
inductive PyVal
  | pyStr (s : String)
  | pyInt (n : Int)
deriving DecidableEq

/-- Python equality between such values: values of different types are
never equal in Python (`"1" == 1` is `False`). -/
def pyEq : PyVal → PyVal → Bool
  | PyVal.pyStr a, PyVal.pyStr b => a == b
  | PyVal.pyInt a, PyVal.pyInt b => a == b
  | _, _ => false

/-- `delete_report` (reports.py line 158): fetches the owner of the row
with the given id (404 when none); answers 403 when `owner_row
["user_id"] != current_user.id` — a Python comparison of the varchar
`user_id` (a `str`) with the int token-user id, which is always unequal
across types; only in the (unreachable) equal case would it run
`DELETE FROM report WHERE id = :rid` and commit. -/
def delete_report (db : List Report) (rid : Nat) (requesterId : Int) :
    DeleteResult × List Report :=
  match db.find? (fun r => decide (r.id = rid)) with
  | none => (DeleteResult.notFound404, db)
  | some r =>
    if pyEq (PyVal.pyStr r.user_id) (PyVal.pyInt requesterId) = false then
      (DeleteResult.forbidden403, db)
    else (DeleteResult.success, db.filter (fun x => decide (x.id ≠ rid)))

/-- The `ST_DWithin` restriction of the nearby query: rows whose stored
point lies within `radius_m` geodesic distance of the query point
(inclusive, per the within-distance predicate). -/
def withinRows (dist : Point → Point → ℚ) (db : List Report) (q : Point)
    (radius_m : ℚ) : List Report :=
  db.filter (fun r => decide (dist r.location q ≤ radius_m))

/-- The rows of one `place_name` group. -/
def placeGroup (rows : List Report) (p : String) : List Report :=
  rows.filter (fun r => decide (r.place_name = p))

/-- The row `DISTINCT ON` keeps from one group ordered by `"timestamp"
DESC`: a row with maximal timestamp (the first stored among ties). -/
def latestIn : List Report → Option Report
  | [] => none
  | r :: rs =>
    match latestIn rs with
    | none => some r
    | some b => some (if r.timestamp < b.timestamp then b else r)

/-- The repository-level nearby query (the SQL of reports.py line 92):
`SELECT DISTINCT ON (place_name) ... WHERE ST_DWithin(location, q,
radius_m) ORDER BY place_name, "timestamp" DESC` — for each distinct
`place_name` among the rows within the radius, the latest row of that
place. -/
def find_nearby (dist : Point → Point → ℚ) (db : List Report) (q : Point)
    (radius_m : ℚ) : List Report :=
  ((withinRows dist db q radius_m).map (fun r => r.place_name)).dedup.filterMap
    (fun p => latestIn (placeGroup (withinRows dist db q radius_m) p))

/-- `get_nearby_reports` (reports.py line 81): public endpoint, delegates
to the nearby query with `radius_meters = radius_km * 1000`. -/
def get_nearby_reports (dist : Point → Point → ℚ) (db : List Report) (q : Point)
    (radius_km : ℚ) : List Report :=
  find_nearby dist db q (radius_km * 1000)

theorem latestIn_cons_isSome (a : Report) (as : List Report) :
    (latestIn (a :: as)).isSome := by
  simp only [latestIn]
  rcases latestIn as with _ | b <;> simp

theorem latestIn_mem (l : List Report) :
    ∀ r : Report, latestIn l = some r → r ∈ l := by
  induction l with
  | nil => intro r h; simp [latestIn] at h
  | cons a as ih =>
    intro r h
    simp only [latestIn] at h
    rcases hl : latestIn as with _ | b <;> rw [hl] at h
    · injection h with h
      subst h
      exact List.mem_cons_self _ _
    · injection h with h
      subst h
      by_cases hts : a.timestamp < b.timestamp
      · rw [if_pos hts]
        exact List.mem_cons_of_mem _ (ih b hl)
      · rw [if_neg hts]
        exact List.mem_cons_self _ _

theorem latestIn_max (l : List Report) :
    ∀ r : Report, latestIn l = some r → ∀ x ∈ l, x.timestamp ≤ r.timestamp := by
  induction l with
  | nil => intro r h; simp [latestIn] at h
  | cons a as ih =>
    intro r h x hx
    simp only [latestIn] at h
    rcases hl : latestIn as with _ | b <;> rw [hl] at h
    · injection h with h
      subst h
      cases as with
      | nil =>
        rw [List.mem_singleton] at hx
        subst hx
        exact le_refl _
      | cons c cs =>
        have := latestIn_cons_isSome c cs
        rw [hl] at this
        simp at this
    · injection h with h
      subst h
      rcases List.mem_cons.mp hx with hxa | hxas
      · subst hxa
        by_cases hts : x.timestamp < b.timestamp
        · rw [if_pos hts]
          exact le_of_lt hts
        · rw [if_neg hts]
      · have hxb := ih b hl x hxas
        by_cases hts : a.timestamp < b.timestamp
        · rw [if_pos hts]
          exact hxb
        · rw [if_neg hts]
          exact le_trans hxb (not_lt.mp hts)

theorem latestIn_strict (l : List Report) :
    ∀ x : Report, x ∈ l →
      (∀ y ∈ l, y ≠ x → y.timestamp < x.timestamp) → latestIn l = some x := by
  induction l with
  | nil => intro x hx; simp at hx
  | cons a as ih =>
    intro x hx hstrict
    simp only [latestIn]
    rcases hl : latestIn as with _ | b
    · cases as with
      | nil =>
        rw [List.mem_singleton] at hx
        subst hx
        rfl
      | cons c cs =>
        have := latestIn_cons_isSome c cs
        rw [hl] at this
        simp at this
    · have hbmem : b ∈ as := latestIn_mem as b hl
      rcases List.mem_cons.mp hx with hxa | hxas
      · subst hxa
        by_cases hba : b = x
        · rw [hba]
          simp
        · have hblt := hstrict b (List.mem_cons_of_mem _ hbmem) hba
          show some (if x.timestamp < b.timestamp then b else x) = some x
          rw [if_neg (not_lt.mpr (le_of_lt hblt))]
      · have hstrict' : ∀ y ∈ as, y ≠ x → y.timestamp < x.timestamp :=
          fun y hy => hstrict y (List.mem_cons_of_mem _ hy)
        have hlx := ih x hxas hstrict'
        rw [hl] at hlx
        injection hlx with hbx
        rw [hbx]
        by_cases hax : a = x
        · rw [hax]
          simp
        · have halt := hstrict a (List.mem_cons_self _ _) hax
          show some (if a.timestamp < x.timestamp then x else a) = some x
          rw [if_pos halt]

theorem mem_find_nearby {dist : Point → Point → ℚ} {db : List Report} {q : Point}
    {R : ℚ} {r : Report} :
    r ∈ find_nearby dist db q R ↔
      ∃ p ∈ ((withinRows dist db q R).map (fun r => r.place_name)).dedup,
        latestIn (placeGroup (withinRows dist db q R) p) = some r := by
  simp [find_nearby, List.mem_filterMap]

theorem mem_withinRows {dist : Point → Point → ℚ} {db : List Report} {q : Point}
    {R : ℚ} {r : Report} :
    r ∈ withinRows dist db q R ↔ r ∈ db ∧ dist r.location q ≤ R := by
  simp [withinRows, List.mem_filter]

theorem mem_placeGroup {rows : List Report} {p : String} {r : Report} :
    r ∈ placeGroup rows p ↔ r ∈ rows ∧ r.place_name = p := by
  simp [placeGroup, List.mem_filter]

theorem find_nearby_sub {dist : Point → Point → ℚ} {db : List Report} {q : Point}
    {R : ℚ} {r : Report} (h : r ∈ find_nearby dist db q R) :
    r ∈ db ∧ dist r.location q ≤ R := by
  rcases mem_find_nearby.mp h with ⟨p, hp, hl⟩
  have hg := mem_placeGroup.mp (latestIn_mem _ _ hl)
  exact mem_withinRows.mp hg.1

theorem find_nearby_latest {dist : Point → Point → ℚ} {db : List Report} {q : Point}
    {R : ℚ} {r : Report} (h : r ∈ find_nearby dist db q R) :
    ∀ x ∈ db, dist x.location q ≤ R → x.place_name = r.place_name →
      x.timestamp ≤ r.timestamp := by
  rcases mem_find_nearby.mp h with ⟨p, hp, hl⟩
  have hrp : r.place_name = p := (mem_placeGroup.mp (latestIn_mem _ _ hl)).2
  intro x hx hdist hplace
  have hxg : x ∈ placeGroup (withinRows dist db q R) p :=
    mem_placeGroup.mpr ⟨mem_withinRows.mpr ⟨hx, hdist⟩, by rw [hplace, hrp]⟩
  exact latestIn_max _ _ hl x hxg

theorem find_nearby_complete {dist : Point → Point → ℚ} {db : List Report} {q : Point}
    {R : ℚ} {x : Report} (hx : x ∈ db) (hdist : dist x.location q ≤ R) :
    ∃ r ∈ find_nearby dist db q R, r.place_name = x.place_name := by
  have hxw : x ∈ withinRows dist db q R := mem_withinRows.mpr ⟨hx, hdist⟩
  have hp : x.place_name ∈ ((withinRows dist db q R).map (fun r => r.place_name)).dedup := by
    rw [List.mem_dedup]
    exact List.mem_map_of_mem _ hxw
  have hxg : x ∈ placeGroup (withinRows dist db q R) x.place_name :=
    mem_placeGroup.mpr ⟨hxw, rfl⟩
  have hsome : ∃ r, latestIn (placeGroup (withinRows dist db q R) x.place_name) = some r := by
    cases hgl : placeGroup (withinRows dist db q R) x.place_name with
    | nil =>
      rw [hgl] at hxg
      simp at hxg
    | cons c cs =>
      exact Option.isSome_iff_exists.mp (latestIn_cons_isSome c cs)
  rcases hsome with ⟨r, hr⟩
  refine ⟨r, mem_find_nearby.mpr ⟨x.place_name, hp, hr⟩, ?_⟩
  exact (mem_placeGroup.mp (latestIn_mem _ _ hr)).2

theorem find_nearby_strict {dist : Point → Point → ℚ} {db : List Report} {q : Point}
    {R : ℚ} {x : Report} (hx : x ∈ db) (hdist : dist x.location q ≤ R)
    (hstrict : ∀ y ∈ db, dist y.location q ≤ R → y.place_name = x.place_name →
      y ≠ x → y.timestamp < x.timestamp) :
    x ∈ find_nearby dist db q R := by
  have hxw : x ∈ withinRows dist db q R := mem_withinRows.mpr ⟨hx, hdist⟩
  have hp : x.place_name ∈ ((withinRows dist db q R).map (fun r => r.place_name)).dedup := by
    rw [List.mem_dedup]
    exact List.mem_map_of_mem _ hxw
  have hlx : latestIn (placeGroup (withinRows dist db q R) x.place_name) = some x := by
    apply latestIn_strict
    · exact mem_placeGroup.mpr ⟨hxw, rfl⟩
    · intro y hy hne
      have hyg := mem_placeGroup.mp hy
      have hyw := mem_withinRows.mp hyg.1
      exact hstrict y hyw.1 hyw.2 hyg.2 hne
  exact mem_find_nearby.mpr ⟨x.place_name, hp, hlx⟩

theorem map_place_filterMap (g : String → Option Report)
    (hg : ∀ p r, g p = some r → r.place_name = p) (l : List String) :
    (l.filterMap g).map (fun r => r.place_name) = l.filter (fun p => (g p).isSome) := by
  induction l with
  | nil => rfl
  | cons p ps ih =>
    rcases hgp : g p with _ | r
    · simp [List.filterMap_cons, hgp, ih, List.filter_cons]
    · simp [List.filterMap_cons, hgp, List.filter_cons, hg p r hgp, ih]

theorem find_nearby_places_nodup (dist : Point → Point → ℚ) (db : List Report)
    (q : Point) (R : ℚ) :
    ((find_nearby dist db q R).map (fun r => r.place_name)).Nodup := by
  have hg : ∀ p r, latestIn (placeGroup (withinRows dist db q R) p) = some r →
      r.place_name = p :=
    fun p r h => (mem_placeGroup.mp (latestIn_mem _ _ h)).2
  unfold find_nearby
  rw [map_place_filterMap _ hg]
  exact List.Nodup.filter _ (List.nodup_dedup _)

/-- Claim C3: for every stored set of reports, every query point and
radius and every geodesic-distance measure, `find_nearby` returns no two
rows with the same `place_name`; every returned row is a stored row
within the radius whose creation timestamp is maximal among the stored
within-radius rows of its `place_name`; every within-radius
`place_name` is represented; and the unique latest within-radius row of
a place is exactly the returned one. -/
theorem c3_find_nearby_latest_per_place (dist : Point → Point → ℚ) (db : List Report)
    (q : Point) (R : ℚ) :
    ((find_nearby dist db q R).map (fun r => r.place_name)).Nodup ∧
    (∀ r ∈ find_nearby dist db q R, r ∈ db ∧ dist r.location q ≤ R ∧
      ∀ x ∈ db, dist x.location q ≤ R → x.place_name = r.place_name →
        x.timestamp ≤ r.timestamp) ∧
    (∀ x ∈ db, dist x.location q ≤ R →
      ∃ r ∈ find_nearby dist db q R, r.place_name = x.place_name) ∧
    (∀ x ∈ db, dist x.location q ≤ R →
      (∀ y ∈ db, dist y.location q ≤ R → y.place_name = x.place_name →
        y ≠ x → y.timestamp < x.timestamp) →
      x ∈ find_nearby dist db q R) := by
  refine ⟨find_nearby_places_nodup dist db q R, ?_, ?_, ?_⟩
  · intro r hr
    exact ⟨(find_nearby_sub hr).1, (find_nearby_sub hr).2, find_nearby_latest hr⟩
  · intro x hx hd
    exact find_nearby_complete hx hd
  · intro x hx hd hs
    exact find_nearby_strict hx hd hs

/-- A degenerate distance measure for the concrete evaluations. -/
def distZero : Point → Point → ℚ := fun _ _ => 0

/-- The query point of the concrete evaluations. -/
def q0 : Point := { lat := 0, lon := 0 }

/-- An older report at place "cafe"; its varchar `user_id` holds the
string "1" (the row user 1 means to own). -/
def cafeOld : Report :=
  { id := 1, location := q0, place_name := "cafe", crowd_status := 2
    decibel_level := 55, vibe_tags := [], user_id := "1", timestamp := 5 }

/-- A newer report at place "cafe". -/
def cafeNew : Report :=
  { id := 2, location := q0, place_name := "cafe", crowd_status := 3
    decibel_level := 60, vibe_tags := [], user_id := "1", timestamp := 9 }

/-- Witness for C3 on a concrete two-report store: the place names are
deduplicated and the strictly latest "cafe" report is returned. -/
theorem c3_find_nearby_latest_per_place_witness :
    ((find_nearby distZero [cafeOld, cafeNew] q0 0).map (fun r => r.place_name)).Nodup ∧
    cafeNew ∈ find_nearby distZero [cafeOld, cafeNew] q0 0 := by
  have h := c3_find_nearby_latest_per_place distZero [cafeOld, cafeNew] q0 0
  exact ⟨h.1, h.2.2.2 cafeNew (by decide) (by decide) (by decide)⟩

/-- Claim C4: for every query point and `radius_km`, `get_nearby_reports`
never returns a report whose geodesic distance from the query point
exceeds `radius_km * 1000` meters, and a report lying exactly at the
radius boundary is included (the within-distance predicate is
inclusive); here stated for the boundary report that is the latest of
its place. -/
theorem c4_nearby_radius_inclusive (dist : Point → Point → ℚ) (db : List Report)
    (q : Point) (radius_km : ℚ) :
    (∀ r ∈ get_nearby_reports dist db q radius_km,
      dist r.location q ≤ radius_km * 1000) ∧
    (∀ x ∈ db, dist x.location q = radius_km * 1000 →
      (∀ y ∈ db, dist y.location q ≤ radius_km * 1000 → y.place_name = x.place_name →
        y ≠ x → y.timestamp < x.timestamp) →
      x ∈ get_nearby_reports dist db q radius_km) := by
  constructor
  · intro r hr
    exact (find_nearby_sub hr).2
  · intro x hx hd hs
    exact find_nearby_strict hx (le_of_eq hd) hs

/-- Witness for C4: with the degenerate zero distance and radius 0 km,
the latest "cafe" report sits exactly at the boundary and is returned. -/
theorem c4_nearby_radius_inclusive_witness :
    cafeNew ∈ get_nearby_reports distZero [cafeOld, cafeNew] q0 0 := by
  refine (c4_nearby_radius_inclusive distZero [cafeOld, cafeNew] q0 0).2 cafeNew
    (by decide) (by norm_num [distZero]) ?_
  intro y hy hle hplace hne
  simp only [List.mem_cons, List.mem_singleton] at hy
  rcases hy with h | h | h
  · subst h
    decide
  · subst h
    exact absurd rfl hne
  · simp at h

/-- Claim C2 is a code bug in its owner-success part: the stored
`report.user_id` is a varchar (a Python `str`) while `current_user.id`
is an int, and Python's cross-type inequality is always true, so
deleting ANY existing report answers 403 — the owner's delete never
succeeds and no call ever removes a row.  (The 404 and non-owner-403
parts of the claim do hold.)  Evaluated at the failing input: user 1
deleting report 1, the row meant to be theirs (varchar `user_id` "1"). -/
theorem c2_owner_delete_forbidden :
    (∀ (db : List Report) (rid : Nat) (requesterId : Int),
      (delete_report db rid requesterId).1 ≠ DeleteResult.success ∧
      (delete_report db rid requesterId).2 = db) ∧
    delete_report [cafeOld] 1 1 = (DeleteResult.forbidden403, [cafeOld]) ∧
    delete_report [cafeOld] 99 1 = (DeleteResult.notFound404, [cafeOld]) := by
  refine ⟨?_, by decide, by decide⟩
  intro db rid requesterId
  rcases hf : db.find? (fun r => decide (r.id = rid)) with _ | r <;>
    simp [delete_report, hf, pyEq]

/-- Claim C8: a report submission whose `crowd_status` lies outside
{1,2,3} is rejected by the pydantic `ge=1, le=3` validation before the
handler runs — a validation error with the stored set unchanged. -/
theorem c8_invalid_crowd_status_rejected (db : List Report) (nextId now : Nat)
    (rc : ReportCreate) (currentUserId : Int)
    (h1 : rc.crowd_status ≠ 1) (h2 : rc.crowd_status ≠ 2) (h3 : rc.crowd_status ≠ 3) :
    submit_report db nextId now rc currentUserId = (SubmitResult.validationError422, db) := by
  have hnv : ¬ validReportCreate rc := by
    rintro ⟨ha, hb, -, -⟩
    omega
  simp [submit_report, hnv]

/-- Witness for C8: a submission with `crowd_status = 5` is rejected and
the empty store stays empty. -/
theorem c8_invalid_crowd_status_rejected_witness :
    submit_report [] 1 0
      { lat := 40, lon := -73, place_name := "Cafe X", crowd_status := 5
        decibel_level := 55, vibe_tags := ["quiet"], user_id := "u" } 1
      = (SubmitResult.validationError422, []) := by
  exact c8_invalid_crowd_status_rejected [] 1 0 _ 1 (by decide) (by decide) (by decide)

end VibeCheck
